import Mathlib

/-!
Verification development for the OmniSession browser-session backup extension.
The definitions below are a shallow embedding of `src/extension/popup.js`
(identity-scoped background variant): pure functions are translated directly,
the browser / network effects are made explicit as environment records and
result values.  Platform primitives that are not part of the repository
(the URL parser, WebCrypto PBKDF2 / AES-GCM) and the remote store's HTTP
endpoints (`server/main.py` is not shipped here) are modelled from the spec,
each marked as such in its doc comment.
-/

namespace OmniSession

set_option autoImplicit false

/-- A cookie record as returned by the browser cookie query API
(`chrome.cookies.Cookie`), restricted to the fields the extension reads.
`Option` fields model object properties that may be absent. -/
structure Cookie where
  name : String
  value : String
  domain : String
  path : String
  secure : Bool
  httpOnly : Bool
  hostOnly : Bool
  sameSite : Option String
  expirationDate : Option Int
  priority : Option String
  sameParty : Option Bool
deriving DecidableEq, Repr

/-- The identity key of a cookie: (name, domain, path). -/
def idKey (c : Cookie) : String × String × String := (c.name, c.domain, c.path)

/-- The string key `mergeCookies` builds for a cookie: name, domain and path
joined with a pipe character (the template literal in popup.js). -/
def mergeKey (c : Cookie) : String := c.name ++ "|" ++ c.domain ++ "|" ++ c.path

/-- The loop body of `mergeCookies`: fold the flattened cookie stream into the
JS `Map`, represented as the list of kept records in insertion order.  A cookie
with a falsy (empty) name is skipped; a cookie whose pipe-joined key is already
present is skipped; otherwise it is appended. -/
def mergeInto : List Cookie → List Cookie → List Cookie
  | [], acc => acc
  | c :: rest, acc =>
    if c.name = "" then mergeInto rest acc
    else if acc.any (fun d => mergeKey d == mergeKey c) then mergeInto rest acc
    else mergeInto rest (acc ++ [c])

/-- `mergeCookies` from popup.js: flatten the variadic cookie lists, keep the
first record seen per pipe-joined key (JS `Map` preserves insertion order, and
`Array.from(merged.values())` returns first occurrences in encounter order). -/
def mergeCookies (cookieLists : List (List Cookie)) : List Cookie :=
  mergeInto cookieLists.flatten []

/-- A string is pipe-free when it does not contain the character the merge key
uses as separator. -/
def noPipe (s : String) : Prop := '|' ∉ s.data

instance (s : String) : Decidable (noPipe s) := by unfold noPipe; infer_instance

/-- A cookie is clean when its name is nonempty and none of its identity-key
components contains the pipe separator used by `mergeCookies`. -/
def cleanCookie (c : Cookie) : Prop :=
  c.name ≠ "" ∧ noPipe c.name ∧ noPipe c.domain ∧ noPipe c.path

instance (c : Cookie) : Decidable (cleanCookie c) := by unfold cleanCookie; infer_instance

/-- Per-key characterization of the merge fold: filtering the result of
`mergeInto cs acc` by one merge key yields the entries of `acc` with that key,
followed by the first not-skipped entry of `cs` with that key when `acc` does
not already hold the key. -/
theorem mergeInto_filter (s : String) :
    ∀ (cs acc : List Cookie),
    (mergeInto cs acc).filter (fun c => mergeKey c == s) =
      acc.filter (fun c => mergeKey c == s) ++
        (if acc.any (fun d => mergeKey d == s) then []
         else (cs.filter (fun c => c.name != "" && mergeKey c == s)).take 1)
  | [], acc => by simp [mergeInto]
  | c :: rest, acc => by
    by_cases h1 : c.name = ""
    · rw [mergeInto, if_pos h1, mergeInto_filter s rest acc]
      simp [List.filter_cons, h1]
    · rw [mergeInto, if_neg h1]
      by_cases h2 : acc.any (fun d => mergeKey d == mergeKey c) = true
      · rw [if_pos h2, mergeInto_filter s rest acc]
        by_cases hs : acc.any (fun d => mergeKey d == s) = true
        · simp [hs]
        · have hcs : ¬ mergeKey c = s := by
            intro he
            exact hs (by simpa [he] using h2)
          simp [hs, List.filter_cons, hcs, h1]
      · rw [if_neg h2, mergeInto_filter s rest (acc ++ [c])]
        by_cases hc : mergeKey c = s
        · have hs : acc.any (fun d => mergeKey d == s) = false := by
            rw [← hc]
            exact Bool.not_eq_true _ ▸ h2
          simp [List.filter_append, List.any_append, List.filter_cons, hc, hs, h1]
        · simp [List.filter_append, List.any_append, List.filter_cons, hc, h1]

/-- Every record returned by the merge fold comes from the accumulator or the
input stream. -/
theorem mem_mergeInto :
    ∀ (cs acc : List Cookie) (c : Cookie), c ∈ mergeInto cs acc → c ∈ acc ∨ c ∈ cs
  | [], _, _, h => Or.inl h
  | c :: rest, acc, d, h => by
    rw [mergeInto] at h
    split at h
    · rcases mem_mergeInto rest acc d h with h | h
      · exact Or.inl h
      · exact Or.inr (List.mem_cons_of_mem _ h)
    · split at h
      · rcases mem_mergeInto rest acc d h with h | h
        · exact Or.inl h
        · exact Or.inr (List.mem_cons_of_mem _ h)
      · rcases mem_mergeInto rest (acc ++ [c]) d h with h | h
        · rcases List.mem_append.mp h with h | h
          · exact Or.inl h
          · exact Or.inr (by simpa using Or.inl (List.mem_singleton.mp h))
        · exact Or.inr (List.mem_cons_of_mem _ h)

/-- Splitting lemma for lists around a separator that occurs in neither prefix:
the decomposition at the first separator occurrence is unique. -/
theorem append_cons_inj {α : Type} (x : α) :
    ∀ (a c b d : List α), x ∉ a → x ∉ c → a ++ x :: b = c ++ x :: d → a = c ∧ b = d
  | [], [], _, _, _, _, h => ⟨rfl, by simpa using h⟩
  | [], y :: c2, b, d, _, hc, h => by
    simp only [List.nil_append, List.cons_append, List.cons.injEq] at h
    exact absurd (h.1 ▸ List.mem_cons_self y c2) hc
  | y :: a2, [], b, d, ha, _, h => by
    simp only [List.nil_append, List.cons_append, List.cons.injEq] at h
    exact absurd (h.1.symm ▸ List.mem_cons_self y a2) ha
  | y :: a2, z :: c2, b, d, ha, hc, h => by
    simp only [List.cons_append, List.cons.injEq] at h
    obtain ⟨rfl, h2⟩ := h
    have ih := append_cons_inj x a2 c2 b d
      (fun hm => ha (List.mem_cons_of_mem _ hm))
      (fun hm => hc (List.mem_cons_of_mem _ hm)) h2
    exact ⟨by rw [ih.1], ih.2⟩

/-- On clean cookies the pipe-joined merge key is equivalent to the
(name, domain, path) identity key. -/
theorem mergeKey_eq_iff_idKey_eq {c d : Cookie}
    (hc : cleanCookie c) (hd : cleanCookie d) :
    mergeKey c = mergeKey d ↔ idKey c = idKey d := by
  constructor
  · intro h
    have hdata := congrArg String.data h
    simp only [mergeKey, String.data_append] at hdata
    simp only [List.append_assoc, List.singleton_append] at hdata
    obtain ⟨h1, h2⟩ := append_cons_inj '|' _ _ _ _ hc.2.1 hd.2.1 hdata
    obtain ⟨h3, h4⟩ := append_cons_inj '|' _ _ _ _ hc.2.2.1 hd.2.2.1 h2
    simp [idKey, String.ext h1, String.ext h3, String.ext h4]
  · intro h
    simp only [idKey, Prod.mk.injEq] at h
    simp [mergeKey, h.1, h.2.1, h.2.2]

/-- Records returned by `mergeCookies` all come from the flattened input. -/
theorem mem_mergeCookies {lss : List (List Cookie)} {c : Cookie}
    (h : c ∈ mergeCookies lss) : c ∈ lss.flatten := by
  rcases mem_mergeInto lss.flatten [] c h with h | h
  · simp at h
  · exact h

/-- Claim C2 (amended): for input cookie lists whose records are clean —
nonempty name and no pipe separator inside name, domain or path — the merge
returns, for every identity key (name, domain, path), exactly the first
occurrence of that key in the concatenation of the inputs in their given
order: one record per distinct key that occurs, none for keys that do not.
In particular two records differing only in domain remain two records and two
records with identical keys collapse to one. -/
theorem mergeCookies_first_per_idKey (lss : List (List Cookie))
    (h : ∀ c ∈ lss.flatten, cleanCookie c) (k : String × String × String) :
    (mergeCookies lss).filter (fun c => idKey c == k) =
      (lss.flatten.filter (fun c => idKey c == k)).take 1 := by
  by_cases hex : ∃ c ∈ lss.flatten, idKey c = k
  · obtain ⟨c0, hc0mem, hc0key⟩ := hex
    have hkey : ∀ c ∈ lss.flatten, (idKey c == k) = (mergeKey c == mergeKey c0) := by
      intro c hcmem
      have hiff := mergeKey_eq_iff_idKey_eq (h c hcmem) (h c0 hc0mem)
      by_cases he : idKey c = k
      · have hm : mergeKey c = mergeKey c0 := hiff.mpr (he.trans hc0key.symm)
        simp [he, hm]
      · have hm : ¬ mergeKey c = mergeKey c0 := fun hm => he ((hiff.mp hm).trans hc0key)
        simp [he, hm]
    have hL : (mergeCookies lss).filter (fun c => idKey c == k) =
        (mergeCookies lss).filter (fun c => mergeKey c == mergeKey c0) :=
      List.filter_congr (fun c hc => hkey c (mem_mergeCookies hc))
    have hR : lss.flatten.filter (fun c => c.name != "" && mergeKey c == mergeKey c0) =
        lss.flatten.filter (fun c => idKey c == k) := by
      refine List.filter_congr (fun c hc => ?_)
      have hn : (c.name != "") = true := by
        simpa using (h c hc).1
      rw [hkey c hc, hn, Bool.true_and]
    rw [hL, mergeCookies, mergeInto_filter, hR]
    simp
  · push_neg at hex
    have hR : lss.flatten.filter (fun c => idKey c == k) = [] := by
      refine List.filter_eq_nil_iff.mpr (fun c hc => ?_)
      simpa using hex c hc
    have hL : (mergeCookies lss).filter (fun c => idKey c == k) = [] := by
      refine List.filter_eq_nil_iff.mpr (fun c hc => ?_)
      simpa using hex c (mem_mergeCookies hc)
    rw [hL, hR]
    rfl

/-- A cookie record with an empty (falsy) name, as the browser produces for a
nameless Set-Cookie header. -/
def unnamedCookie : Cookie :=
  { name := "", value := "v", domain := "x.com", path := "/", secure := false,
    httpOnly := false, hostOnly := false, sameSite := none,
    expirationDate := none, priority := none, sameParty := none }

/-- Claim C2 counterexample: as stated — for any input lists, one record per
distinct identity key, equal to the first occurrence — the property fails:
`mergeCookies` silently drops a record whose name is empty, so its identity
key has no representative in the result although it occurs in the input. -/
theorem mergeCookies_claim_counterexample :
    ¬ ((mergeCookies [[unnamedCookie]]).filter (fun c => idKey c == ("", "x.com", "/")) =
       ([[unnamedCookie]].flatten.filter (fun c => idKey c == ("", "x.com", "/"))).take 1) := by
  decide

/-- First cookie of end-to-end scenario A: (a, x.com, /). -/
def cookieAX : Cookie :=
  { name := "a", value := "1", domain := "x.com", path := "/", secure := false,
    httpOnly := false, hostOnly := false, sameSite := none,
    expirationDate := none, priority := none, sameParty := none }

/-- Second cookie of end-to-end scenario A: (a, y.x.com, /). -/
def cookieAYX : Cookie :=
  { name := "a", value := "2", domain := "y.x.com", path := "/", secure := false,
    httpOnly := false, hostOnly := false, sameSite := none,
    expirationDate := none, priority := none, sameParty := none }

/-- Witness for the amended claim C2 at the scenario-A inputs: the hypotheses
hold for the concrete lists, the per-key characterization follows from the
theorem, and the scenario-A record counts come out as stated — two records for
domains x.com and y.x.com, one record for two identical keys. -/
theorem mergeCookies_first_per_idKey_witness :
    (∀ c ∈ [[cookieAX], [cookieAYX]].flatten, cleanCookie c)
    ∧ (mergeCookies [[cookieAX], [cookieAYX]]).filter
        (fun c => idKey c == ("a", "x.com", "/")) =
      ([[cookieAX], [cookieAYX]].flatten.filter
        (fun c => idKey c == ("a", "x.com", "/"))).take 1
    ∧ (mergeCookies [[cookieAX], [cookieAYX]]).length = 2
    ∧ (mergeCookies [[cookieAX], [cookieAX]]).length = 1 :=
  ⟨by decide,
   mergeCookies_first_per_idKey [[cookieAX], [cookieAYX]] (by decide) ("a", "x.com", "/"),
   by decide, by decide⟩

/-- JS String.prototype.split with a single-character separator, modelled by
structural recursion over the character list (String.splitOn in Lean core does
not reduce in the kernel). -/
def splitOnChar (sep : Char) : List Char → List (List Char)
  | [] => [[]]
  | c :: rest =>
    let r := splitOnChar sep rest
    if c = sep then [] :: r
    else (c :: r.headD []) :: r.tail

/-- hostname.split(".") from popup.js, at the string level. -/
def splitDots (s : String) : List String :=
  (splitOnChar (Char.ofNat 46) s.data).map List.asString

/-- Array.prototype.join with a separator, as used for parts.join("."). -/
def joinSep (sep : String) : List String → String
  | [] => ""
  | [x] => x
  | x :: y :: xs => x ++ sep ++ joinSep sep (y :: xs)

/-- JS String.prototype.startsWith, modelled at the character-list level. -/
def strStartsWith (s pre : String) : Bool := pre.data.isPrefixOf s.data

/-- JS String.prototype.endsWith, modelled at the character-list level. -/
def strEndsWith (s suf : String) : Bool := suf.data.isSuffixOf s.data

/-- Drops everything through the first scheme separator of a URL. -/
def dropSchemeSep : List Char → List Char
  | [] => []
  | ':' :: '/' :: '/' :: rest => rest
  | _ :: rest => dropSchemeSep rest

/-- Modelled from the spec: the platform URL parser (`new URL(url)`) is not part
of the repository.  Its hostname accessor is modelled, for well-formed absolute
http(s) URLs, as the authority substring after the scheme separator, truncated
at the first slash, colon, question mark or hash. -/
def urlHostname (url : String) : String :=
  ((dropSchemeSep url.data).takeWhile
    (fun ch => ch != '/' && ch != ':' && ch != '?' && ch != '#')).asString

/-- Modelled from the spec: the platform URL origin accessor
(`new URL(url).origin`), modelled for http(s) URLs without an explicit default
port as scheme, separator and host. -/
def urlOrigin (url : String) : String :=
  (url.data.takeWhile (fun ch => ch != ':')).asString ++ "://" ++ urlHostname url

/-- `getRootDomain` from popup.js: take the hostname, split it on dots; with
more than two labels keep the last two joined by a dot, otherwise return the
hostname unchanged. -/
def getRootDomain (url : String) : String :=
  let hostname := urlHostname url
  let parts := splitDots hostname
  if parts.length > 2 then
    joinSep "." (parts.drop (parts.length - 2))
  else hostname

/-- `isRestrictedUrl` from popup.js: browser-internal schemes the extension
refuses to operate on. -/
def isRestrictedUrl (url : String) : Bool :=
  strStartsWith url "chrome://" || strStartsWith url "chrome-extension://"
    || strStartsWith url "edge://"

/-- Claim C4: the root-domain resolver splits the parsed hostname on dots and
keeps the final two labels when there are more than two, otherwise returns the
hostname unchanged; concretely it maps login.example.com to example.com, keeps
example.com, and (known-incorrect, preserved) maps a.example.co.uk to co.uk. -/
theorem getRootDomain_spec :
    (∀ url : String,
      getRootDomain url =
        (let hostname := urlHostname url
         let parts := splitDots hostname
         if 2 < parts.length then
           joinSep "." ((parts.reverse.take 2).reverse)
         else hostname))
    ∧ getRootDomain "https://login.example.com/x" = "example.com"
    ∧ getRootDomain "https://example.com" = "example.com"
    ∧ getRootDomain "https://a.example.co.uk" = "co.uk" := by
  refine ⟨fun url => ?_, by decide, by decide, by decide⟩
  show getRootDomain url = if _ then _ else _
  rw [getRootDomain]
  by_cases h : 2 < (splitDots (urlHostname url)).length
  · rw [if_pos h, if_pos h]
    congr 1
    rw [List.take_reverse, List.reverse_reverse]
  · rw [if_neg h, if_neg h]

/-- `stripLeadingDot` models `String.replace` with the anchored dot regex used
throughout popup.js: at most one leading dot is removed. -/
def stripLeadingDot (s : String) : String :=
  if strStartsWith s "." then (s.data.drop 1).asString else s

/-- The details object handed to `chrome.cookies.set` when a cookie is
replayed; `Option` fields model properties left off the object. -/
structure CookieDetails where
  url : String
  name : String
  value : String
  path : String
  secure : Bool
  httpOnly : Bool
  domain : Option String
  storeId : Option String
  sameSite : Option String
  expirationDate : Option Int
  priority : Option String
  sameParty : Option Bool
deriving DecidableEq, Repr

/-- `buildCookieDetails` from popup.js: the target URL uses https exactly for
secure cookies, the domain with one leading dot stripped, and the path with a
falsy path defaulted to a slash; the explicit domain attribute is set unless
the cookie is host-only; truthiness checks on storeId and priority and
undefined-checks on sameSite, expirationDate and sameParty gate the remaining
attributes. -/
def buildCookieDetails (cookie : Cookie) (storeId : Option String) : CookieDetails :=
  let hostname := stripLeadingDot cookie.domain
  let url := (if cookie.secure then "https" else "http") ++ "://" ++ hostname
    ++ (if cookie.path = "" then "/" else cookie.path)
  { url := url
    name := cookie.name
    value := cookie.value
    path := cookie.path
    secure := cookie.secure
    httpOnly := cookie.httpOnly
    domain := if cookie.hostOnly then none else some cookie.domain
    storeId := match storeId with
      | some s => if s = "" then none else some s
      | none => none
    sameSite := cookie.sameSite
    expirationDate := cookie.expirationDate
    priority := match cookie.priority with
      | some p => if p = "" then none else some p
      | none => none
    sameParty := cookie.sameParty }

/-- Claim C3: the cookie-set call built for replay targets a URL whose scheme
is https exactly when the cookie is secure, whose host is the stored domain
with its leading dot stripped and whose path is the stored path (a slash when
empty); a dotted-domain non-host-only cookie keeps an explicit domain attribute
equal to the dotted domain; a host-only cookie carries no domain attribute. -/
theorem buildCookieDetails_replay_spec (c : Cookie) (storeId : Option String) :
    ((buildCookieDetails c storeId).url =
      (if c.secure then "https" else "http") ++ "://" ++ stripLeadingDot c.domain
        ++ (if c.path = "" then "/" else c.path))
    ∧ (strStartsWith c.domain "." = true → c.hostOnly = false →
        (buildCookieDetails c storeId).domain = some c.domain)
    ∧ (c.hostOnly = true → (buildCookieDetails c storeId).domain = none) := by
  refine ⟨rfl, fun _ hh => ?_, fun hh => ?_⟩ <;> simp [buildCookieDetails, hh]

/-- A non-host-only cookie for the dotted domain of end-to-end scenario B. -/
def dottedV2exCookie : Cookie :=
  { name := "s", value := "t", domain := ".v2ex.com", path := "/", secure := true,
    httpOnly := false, hostOnly := false, sameSite := none,
    expirationDate := none, priority := none, sameParty := none }

/-- A host-only cookie for end-to-end scenario B. -/
def hostOnlyV2exCookie : Cookie :=
  { name := "s", value := "t", domain := "v2ex.com", path := "/", secure := true,
    httpOnly := false, hostOnly := true, sameSite := none,
    expirationDate := none, priority := none, sameParty := none }

/-- Witness for claim C3 at the scenario-B cookies: the dotted-domain cookie is
replayed with the explicit domain attribute .v2ex.com, the host-only cookie
with no domain attribute in the call. -/
theorem buildCookieDetails_replay_spec_witness :
    (strStartsWith dottedV2exCookie.domain "." = true
      ∧ dottedV2exCookie.hostOnly = false
      ∧ (buildCookieDetails dottedV2exCookie none).domain = some ".v2ex.com")
    ∧ (hostOnlyV2exCookie.hostOnly = true
      ∧ (buildCookieDetails hostOnlyV2exCookie none).domain = none) :=
  ⟨⟨by decide, by decide,
    (buildCookieDetails_replay_spec dottedV2exCookie none).2.1 (by decide) (by decide)⟩,
   ⟨by decide,
    (buildCookieDetails_replay_spec hostOnlyV2exCookie none).2.2 (by decide)⟩⟩

/-- Per-origin key/value storage, as snapshotted by the injected read routine. -/
abbrev Storage := List (String × String)

/-- The per-backup storage snapshot: origin to storage, in insertion order. -/
abbrev StorageMap := List (String × Storage)

/-- Browser-tab lifecycle events emitted by the harvester. -/
inductive TabEvent where
  | created (id : Nat)
  | removed (id : Nat)
deriving DecidableEq, Repr

/-- Outcomes of the browser primitives during one harvestRead/harvestWrite
invocation: whether tab creation succeeded (and with which id), whether the
load-complete signal arrived before the 12-second timeout, the tab URL
observed afterwards (none models a falsy url), whether script injection
succeeded, and the storage the injected routine reports. -/
structure HarvestEnv where
  createdTab : Option Nat
  loadCompletes : Bool
  finalUrl : Option String
  injectOk : Bool
  storage : Storage
deriving DecidableEq, Repr

/-- Failure modes of one harvester invocation. -/
inductive HarvestError where
  | createFailed
  | tabLoadTimeout
  | unsupportedPage
  | injectionFailed
deriving DecidableEq, Repr

/-- The try-block body of readLocalStorageForUrl once the tab exists: wait for
load (timeout rejects), re-read the tab, reject restricted or url-less tabs,
inject the read routine, and return the snapshot keyed by the tab origin. -/
def readBody (env : HarvestEnv) : Except HarvestError (String × Storage) :=
  if !env.loadCompletes then .error .tabLoadTimeout
  else
    match env.finalUrl with
    | none => .error .unsupportedPage
    | some u =>
      if isRestrictedUrl u then .error .unsupportedPage
      else if !env.injectOk then .error .injectionFailed
      else .ok (urlOrigin u, env.storage)

/-- readLocalStorageForUrl from popup.js, as a result paired with the trace of
tab events: the finally clause removes the tab whenever one was created, on
every exit path of the body. -/
def readLocalStorageForUrl (env : HarvestEnv) :
    Except HarvestError (String × Storage) × List TabEvent :=
  match env.createdTab with
  | none => (.error .createFailed, [])
  | some id => (readBody env, [TabEvent.created id, TabEvent.removed id])

/-- The try-block body of writeLocalStorageForUrl once the tab exists: wait
for load, reject restricted or url-less tabs, inject the clear-and-repopulate
routine. -/
def writeBody (env : HarvestEnv) : Except HarvestError Unit :=
  if !env.loadCompletes then .error .tabLoadTimeout
  else
    match env.finalUrl with
    | none => .error .unsupportedPage
    | some u =>
      if isRestrictedUrl u then .error .unsupportedPage
      else if !env.injectOk then .error .injectionFailed
      else .ok ()

/-- writeLocalStorageForUrl from popup.js, with the same finally discipline as
the read direction. -/
def writeLocalStorageForUrl (env : HarvestEnv) (payload : Storage) :
    Except HarvestError Unit × List TabEvent :=
  match env.createdTab, payload with
  | none, _ => (.error .createFailed, [])
  | some id, _ => (writeBody env, [TabEvent.created id, TabEvent.removed id])

/-- Claim C9: whenever a harvester invocation managed to open its ephemeral
tab, the trace contains the matching removal — on the success path as well as
on the timeout, restricted-page and injection-failure paths, for both the read
and the write direction. -/
theorem harvester_always_closes_tab (env : HarvestEnv) (payload : Storage) (id : Nat) :
    (TabEvent.created id ∈ (readLocalStorageForUrl env).2 →
      TabEvent.removed id ∈ (readLocalStorageForUrl env).2)
    ∧ (TabEvent.created id ∈ (writeLocalStorageForUrl env payload).2 →
      TabEvent.removed id ∈ (writeLocalStorageForUrl env payload).2) := by
  constructor <;>
  · intro hmem
    match henv : env.createdTab with
    | none =>
      simp [readLocalStorageForUrl, writeLocalStorageForUrl, henv] at hmem
    | some tid =>
      simp only [readLocalStorageForUrl, writeLocalStorageForUrl, henv,
        List.mem_cons, List.mem_singleton, List.not_mem_nil, or_false] at hmem ⊢
      rcases hmem with hmem | hmem
      · cases hmem
        exact Or.inr rfl
      · cases hmem

/-- Timeout environment for the witness: the tab opened as tab 7 but the load
signal never arrived within the bound. -/
def timeoutEnv : HarvestEnv :=
  { createdTab := some 7, loadCompletes := false, finalUrl := none,
    injectOk := false, storage := [] }

/-- Witness for claim C9 at a concrete timeout run: tab 7 is created, the body
rejects with the tab-load timeout, and the trace still removes tab 7. -/
theorem harvester_always_closes_tab_witness :
    TabEvent.created 7 ∈ (readLocalStorageForUrl timeoutEnv).2
    ∧ TabEvent.removed 7 ∈ (readLocalStorageForUrl timeoutEnv).2
    ∧ (readLocalStorageForUrl timeoutEnv).1 = .error .tabLoadTimeout :=
  ⟨by decide,
   (harvester_always_closes_tab timeoutEnv [] 7).1 (by decide),
   rfl⟩

/-- collectCandidateHosts from popup.js: a JS Set seeded with the current
hostname; every cookie with a truthy domain contributes its domain with the
leading dot stripped, when that is nonempty; Array.from keeps insertion
order without duplicates. -/
def collectCandidateHosts (cookies : List Cookie) (currentHostname : String) : List String :=
  cookies.foldl
    (fun hosts c =>
      if c.domain = "" then hosts
      else
        let host := stripLeadingDot c.domain
        if host = "" then hosts
        else if host ∈ hosts then hosts
        else hosts ++ [host])
    [currentHostname]

/-- filterCookiesForDomain from popup.js: keep a cookie when its dot-stripped
domain is nonempty and matches the current hostname, matches the root domain,
or is a dot-suffix of the root domain. -/
def filterCookiesForDomain (cookies : List Cookie) (rootDomain currentHostname : String) :
    List Cookie :=
  cookies.filter (fun c =>
    let cookieDomain := if c.domain = "" then "" else stripLeadingDot c.domain
    if cookieDomain = "" then false
    else if cookieDomain = currentHostname || cookieDomain = rootDomain then true
    else strEndsWith cookieDomain ("." ++ rootDomain))

/-- One hexadecimal digit, lower case. -/
def hexDigit (n : Nat) : Char :=
  if n < 10 then Char.ofNat (48 + n) else Char.ofNat (87 + n)

/-- JSON.stringify escaping of one character: quote, backslash and the named
control characters get two-character escapes, other control characters get a
unicode escape, everything else is emitted verbatim. -/
def jsonEscapeChar (c : Char) : List Char :=
  if c = Char.ofNat 34 then [Char.ofNat 92, Char.ofNat 34]
  else if c = Char.ofNat 92 then [Char.ofNat 92, Char.ofNat 92]
  else if c = Char.ofNat 8 then [Char.ofNat 92, 'b']
  else if c = Char.ofNat 12 then [Char.ofNat 92, 'f']
  else if c = Char.ofNat 10 then [Char.ofNat 92, 'n']
  else if c = Char.ofNat 13 then [Char.ofNat 92, 'r']
  else if c = Char.ofNat 9 then [Char.ofNat 92, 't']
  else if c.toNat < 32 then
    [Char.ofNat 92, 'u', '0', '0', hexDigit (c.toNat / 16), hexDigit (c.toNat % 16)]
  else [c]

/-- A JSON string literal, as a character list. -/
def jsonStr (s : String) : List Char :=
  Char.ofNat 34 :: (s.data.foldr (fun c acc => jsonEscapeChar c ++ acc) [Char.ofNat 34])

/-- A JSON boolean literal, as a character list. -/
def jsonBool (b : Bool) : List Char :=
  if b then ['t', 'r', 'u', 'e'] else ['f', 'a', 'l', 's', 'e']

/-- One object member: quoted key, colon, serialized value. -/
def jsonMember (key : String) (v : List Char) : List Char :=
  jsonStr key ++ ':' :: v

/-- Comma-joined serialization pieces. -/
def joinComma : List (List Char) → List Char
  | [] => []
  | [x] => x
  | x :: y :: xs => x ++ ',' :: joinComma (y :: xs)

/-- The members JSON.stringify emits for one cookie record of the model:
always-present fields first, then the optional fields exactly when present
(an undefined JS property is skipped by JSON.stringify). -/
def cookieJsonMembers (c : Cookie) : List (List Char) :=
  [jsonMember "name" (jsonStr c.name),
   jsonMember "value" (jsonStr c.value),
   jsonMember "domain" (jsonStr c.domain),
   jsonMember "path" (jsonStr c.path),
   jsonMember "secure" (jsonBool c.secure),
   jsonMember "httpOnly" (jsonBool c.httpOnly),
   jsonMember "hostOnly" (jsonBool c.hostOnly)]
  ++ (match c.sameSite with | some s => [jsonMember "sameSite" (jsonStr s)] | none => [])
  ++ (match c.expirationDate with
      | some i => [jsonMember "expirationDate" (toString i).data] | none => [])
  ++ (match c.priority with | some s => [jsonMember "priority" (jsonStr s)] | none => [])
  ++ (match c.sameParty with | some b => [jsonMember "sameParty" (jsonBool b)] | none => [])

/-- JSON.stringify of one cookie object. -/
def cookieJson (c : Cookie) : List Char :=
  Char.ofNat 123 :: joinComma (cookieJsonMembers c) ++ [Char.ofNat 125]

/-- JSON.stringify of the cookie array. -/
def cookiesJson (cs : List Cookie) : List Char :=
  '[' :: joinComma (cs.map cookieJson) ++ [']']

/-- UTF-8 byte length of a character list, as TextEncoder().encode(...).length
measures it. -/
def utf8Len (cs : List Char) : Nat :=
  cs.foldr (fun c n => c.utf8Size + n) 0

/-- getCookiesSizeBytes from popup.js: the UTF-8 byte length of
JSON.stringify(cookies), over the modelled cookie fields. -/
def getCookiesSizeBytes (cookies : List Cookie) : Nat :=
  utf8Len (cookiesJson cookies)

/-- COOKIE_SIZE_LIMIT_BYTES from popup.js: the 6 KiB ceiling of the
capacity-limited variant. -/
def COOKIE_SIZE_LIMIT_BYTES : Nat := 6 * 1024

/-- The payload object `{cookies, local_storage}` that the encryption
envelope protects. -/
structure E2EPayload where
  cookies : List Cookie
  local_storage : StorageMap
deriving DecidableEq, Repr

/-- Modelled from the spec: PBKDF2-HMAC-SHA256 key derivation
(crypto.subtle.deriveKey, a platform primitive not in the repository),
idealized as the pair of password and salt — two derived keys agree exactly
when password and salt agree. -/
structure DerivedKey where
  password : String
  salt : List Nat
deriving DecidableEq, Repr

/-- deriveKey from popup.js over the idealized KDF. -/
def deriveKey (password : String) (salt : List Nat) : DerivedKey :=
  { password := password, salt := salt }

/-- Modelled from the spec: AES-256-GCM authenticated encryption
(crypto.subtle.encrypt/decrypt, platform primitives not in the repository),
idealized symbolically — a ciphertext carries key, nonce and plaintext, and
authenticated decryption returns the plaintext exactly when key and nonce
match (a mismatch is the GCM tag failure).  The UTF-8 JSON round trip of the
payload and the base64 transport encoding are modelled as identity
injections. -/
structure SymCiphertext where
  key : DerivedKey
  nonce : List Nat
  plaintext : E2EPayload
deriving DecidableEq, Repr

/-- Symbolic AES-GCM encryption. -/
def aesGcmEncrypt (key : DerivedKey) (nonce : List Nat) (pt : E2EPayload) : SymCiphertext :=
  { key := key, nonce := nonce, plaintext := pt }

/-- Symbolic AES-GCM decryption; none models the thrown OperationError on a
tag mismatch. -/
def aesGcmDecrypt (key : DerivedKey) (nonce : List Nat) (ct : SymCiphertext) :
    Option E2EPayload :=
  if ct.key = key ∧ ct.nonce = nonce then some ct.plaintext else none

/-- The transported envelope triple `{payload, salt, nonce}`. -/
structure Envelope where
  payload : SymCiphertext
  salt : List Nat
  nonce : List Nat
deriving DecidableEq, Repr

/-- encryptE2EPayload from popup.js: derive the key from the password and a
fresh random salt, encrypt the serialized payload under a fresh random nonce,
and return ciphertext, salt and nonce. -/
def encryptE2EPayload (payload : E2EPayload) (password : String)
    (salt nonce : List Nat) : Envelope :=
  { payload := aesGcmEncrypt (deriveKey password salt) nonce payload,
    salt := salt, nonce := nonce }

/-- decryptE2EPayload from popup.js: re-derive the key from the supplied
password and the received salt, then authenticated-decrypt with the received
nonce. -/
def decryptE2EPayload (payload : SymCiphertext) (salt nonce : List Nat)
    (password : String) : Option E2EPayload :=
  aesGcmDecrypt (deriveKey password salt) nonce payload

/-- The per-URL outcomes of readLocalStorageForUrl during one backup run: a
url maps to some (origin, data) on success and to none when the harvest of
that url fails (tab-load timeout, restricted page, injection failure). -/
abbrev HarvestOutcomes := List (String × Option (String × Storage))

/-- Looks up the harvest outcome recorded for a url; an unlisted url fails. -/
def lookupHarvest (h : HarvestOutcomes) (url : String) : Option (String × Storage) :=
  match h.lookup url with
  | some r => r
  | none => none

/-- The https-then-http fallback of the backup harvesting loop: try the https
url for a host, and on failure retry once over http. -/
def tryHarvestHost (h : HarvestOutcomes) (host : String) : Option (String × Storage) :=
  match lookupHarvest h ("https://" ++ host) with
  | some r => some r
  | none => lookupHarvest h ("http://" ++ host)

/-- The harvesting loop of runBackup: walk the candidate hosts in discovery
order, skip the current hostname, swallow per-host failures, and record a
successful snapshot only under a truthy origin that is not already a key of
the map. -/
def harvestLoop (h : HarvestOutcomes) (currentHostname : String) :
    List String → StorageMap → StorageMap
  | [], m => m
  | host :: rest, m =>
    if host = currentHostname then harvestLoop h currentHostname rest m
    else
      match tryHarvestHost h host with
      | none => harvestLoop h currentHostname rest m
      | some (origin, data) =>
        if origin != "" && (m.lookup origin).isNone then
          harvestLoop h currentHostname rest (m ++ [(origin, data)])
        else harvestLoop h currentHostname rest m

/-- Failure modes of the backup pipeline up to the submission request. -/
inductive BackupError where
  | noActiveTab
  | unsupportedPage
  | missingUserId
  | payloadTooLarge
  | storageReadFailed
deriving DecidableEq, Repr

/-- The one network request a successful backup run submits: the endpoint
path and the JSON body fields; cookies and local_storage are the plain-mode
fields, envelope holds the e2e-mode payload, salt and nonce fields. -/
structure BackupRequest where
  path : String
  user_id : String
  device : String
  domain : String
  cookies : Option (List Cookie)
  local_storage : Option StorageMap
  envelope : Option Envelope
deriving DecidableEq, Repr

/-- The environment of one runBackup invocation: the active tab url, the
configured user id, the four cookie-query results, the fallback full-scan
result, the current-origin storage read (which may fail), the per-url harvest
outcomes, the configured password, and the salt and nonce drawn from the
random source for an e2e backup. -/
structure BackupEnv where
  tabUrl : String
  userId : String
  cookieBuckets : List (List Cookie)
  allCookies : List Cookie
  ownStorage : Except Unit Storage
  harvest : HarvestOutcomes
  apiPassword : String
  salt : List Nat
  nonce : List Nat
deriving Repr

/-- The cookie set runBackup collects: the merge of the four query buckets,
or — when that merge is empty — the merge of it with the domain-filtered full
scan. -/
def backupCollectedCookies (env : BackupEnv) : List Cookie :=
  let rootDomain := getRootDomain env.tabUrl
  let currentHostname := urlHostname env.tabUrl
  let merged := mergeCookies env.cookieBuckets
  if merged.length = 0 then
    mergeCookies [merged, filterCookiesForDomain env.allCookies rootDomain currentHostname]
  else merged

/-- runBackup from popup.js (identity-scoped variant), up to and including the
construction of the submission request.  The result models the control flow of
the source in order: active-tab and restricted-page checks, the user-id check,
cookie collection, the size guard, the mandatory current-origin storage read,
the best-effort harvesting loop, and the assembly of the plain or e2e request.
An error result means the run throws before `fetch`: no network request is
made and nothing is uploaded; the ok value is the single request submitted. -/
def runBackupCore (env : BackupEnv) : Except BackupError BackupRequest :=
  if env.tabUrl = "" then .error .noActiveTab
  else if isRestrictedUrl env.tabUrl then .error .unsupportedPage
  else if env.userId = "" then .error .missingUserId
  else
    let rootDomain := getRootDomain env.tabUrl
    let currentOrigin := urlOrigin env.tabUrl
    let currentHostname := urlHostname env.tabUrl
    let cookies := backupCollectedCookies env
    if getCookiesSizeBytes cookies > COOKIE_SIZE_LIMIT_BYTES then .error .payloadTooLarge
    else
      match env.ownStorage with
      | .error _ => .error .storageReadFailed
      | .ok ownData =>
        let localStorageMap :=
          harvestLoop env.harvest currentHostname
            (collectCandidateHosts cookies currentHostname) [(currentOrigin, ownData)]
        if env.apiPassword != "" then
          .ok { path := "/e2e/backup", user_id := env.userId, device := "",
                domain := rootDomain, cookies := none, local_storage := none,
                envelope := some (encryptE2EPayload
                  { cookies := cookies, local_storage := localStorageMap }
                  env.apiPassword env.salt env.nonce) }
        else
          .ok { path := "/backup", user_id := env.userId, device := "",
                domain := rootDomain, cookies := some cookies,
                local_storage := some localStorageMap, envelope := none }

/-- Claim C5: in the capacity-limited identity-scoped backup, a collected
cookie set whose UTF-8 JSON serialization exceeds the 6 KiB ceiling makes the
run fail with the size-exceeded error: the result is PayloadTooLarge whatever
the storage read, harvest outcomes or password, and since an error result
precedes the single fetch of the pipeline, no network request is made and
nothing — partial or truncated — is uploaded. -/
theorem backup_size_guard (env : BackupEnv)
    (h1 : env.tabUrl ≠ "") (h2 : isRestrictedUrl env.tabUrl = false)
    (h3 : env.userId ≠ "")
    (hsize : getCookiesSizeBytes (backupCollectedCookies env) > COOKIE_SIZE_LIMIT_BYTES) :
    runBackupCore env = .error .payloadTooLarge := by
  rw [runBackupCore]
  simp [h1, h2, h3, hsize]

/-- A cookie whose value alone pushes the serialized set past the ceiling. -/
def bigValueCookie : Cookie :=
  { name := "big", value := (List.replicate 6200 'a').asString, domain := "x.com",
    path := "/", secure := false, httpOnly := false, hostOnly := false,
    sameSite := none, expirationDate := none, priority := none, sameParty := none }

/-- A backup environment that collects only the oversized cookie. -/
def oversizedEnv : BackupEnv :=
  { tabUrl := "https://x.com/", userId := "user-1",
    cookieBuckets := [[bigValueCookie]], allCookies := [],
    ownStorage := .ok [], harvest := [], apiPassword := "",
    salt := [], nonce := [] }

/-- utf8Len distributes over list append. -/
theorem utf8Len_append (a b : List Char) : utf8Len (a ++ b) = utf8Len a + utf8Len b := by
  induction a with
  | nil => simp [utf8Len]
  | cons c cs ih =>
    simp only [List.cons_append, utf8Len, List.foldr_cons] at ih ⊢
    omega

/-- utf8Len over a cons. -/
theorem utf8Len_cons (c : Char) (cs : List Char) :
    utf8Len (c :: cs) = c.utf8Size + utf8Len cs := rfl

/-- Every piece of a comma join is no longer than the join. -/
theorem le_utf8Len_joinComma {piece : List Char} :
    ∀ {pieces : List (List Char)}, piece ∈ pieces →
      utf8Len piece ≤ utf8Len (joinComma pieces)
  | [], h => absurd h (List.not_mem_nil piece)
  | [x], h => by
    rw [List.mem_singleton.mp h, joinComma]
  | x :: y :: ys, h => by
    rw [joinComma, utf8Len_append, utf8Len_cons]
    rcases List.mem_cons.mp h with h | h
    · rw [h]; omega
    · have := le_utf8Len_joinComma h
      omega

/-- The escaped form of the letter used by the oversized value. -/
theorem jsonEscapeChar_a : jsonEscapeChar 'a' = ['a'] := by decide

/-- Folding the escaper over a replicated letter appends the closing quote. -/
theorem foldr_escape_replicate_a (n : Nat) :
    (List.replicate n 'a').foldr (fun c acc => jsonEscapeChar c ++ acc) [Char.ofNat 34]
      = List.replicate n 'a' ++ [Char.ofNat 34] := by
  induction n with
  | zero => rfl
  | succ k ih => simp [List.replicate_succ, ih, jsonEscapeChar_a]

/-- utf8Len of a replicated one-byte letter before a tail. -/
theorem utf8Len_replicate_a (n : Nat) (tail : List Char) :
    utf8Len (List.replicate n 'a' ++ tail) = n + utf8Len tail := by
  induction n with
  | zero => simp
  | succ k ih =>
    have ha : ('a').utf8Size = 1 := by decide
    simp only [List.replicate_succ, List.cons_append, utf8Len_cons, ih, ha]
    omega

/-- The serialized length of the oversized cookie value. -/
theorem bigValue_jsonStr_len : utf8Len (jsonStr bigValueCookie.value) = 6202 := by
  show utf8Len (jsonStr (List.replicate 6200 'a').asString) = 6202
  rw [jsonStr]
  have hdata : ((List.replicate 6200 'a').asString).data = List.replicate 6200 'a' := rfl
  rw [hdata, foldr_escape_replicate_a, utf8Len_cons, utf8Len_replicate_a]
  have hq : (Char.ofNat 34).utf8Size = 1 := by decide
  have hq2 : utf8Len [Char.ofNat 34] = 1 := by decide
  rw [hq, hq2]

/-- The value member of the oversized cookie occurs among its JSON members. -/
theorem bigValue_member_mem :
    jsonMember "value" (jsonStr bigValueCookie.value) ∈ cookieJsonMembers bigValueCookie := by
  rw [cookieJsonMembers]
  apply List.mem_append_left
  apply List.mem_append_left
  apply List.mem_append_left
  apply List.mem_append_left
  exact List.mem_cons_of_mem _ (List.mem_cons_self _ _)

/-- The oversized environment exceeds the 6 KiB ceiling. -/
theorem oversizedEnv_exceeds :
    getCookiesSizeBytes (backupCollectedCookies oversizedEnv) > COOKIE_SIZE_LIMIT_BYTES := by
  have hc : backupCollectedCookies oversizedEnv = [bigValueCookie] := rfl
  rw [hc]
  have hmem := le_utf8Len_joinComma bigValue_member_mem
  have hpiece : utf8Len (jsonMember "value" (jsonStr bigValueCookie.value)) = 6210 := by
    rw [jsonMember, utf8Len_append, utf8Len_cons, bigValue_jsonStr_len]
    have h1 : utf8Len (jsonStr "value") = 7 := by decide
    have h2 : (':').utf8Size = 1 := by decide
    rw [h1, h2]
  rw [hpiece] at hmem
  have hck : utf8Len (cookieJson bigValueCookie) =
      2 + utf8Len (joinComma (cookieJsonMembers bigValueCookie)) := by
    rw [cookieJson, utf8Len_append, utf8Len_cons]
    have hb1 : (Char.ofNat 123).utf8Size = 1 := by decide
    have hb2 : utf8Len [Char.ofNat 125] = 1 := by decide
    rw [hb1, hb2]
    omega
  have htotal : getCookiesSizeBytes [bigValueCookie] =
      2 + utf8Len (cookieJson bigValueCookie) := by
    rw [getCookiesSizeBytes, cookiesJson]
    show utf8Len ('[' :: joinComma [cookieJson bigValueCookie] ++ [']']) = _
    rw [joinComma, utf8Len_append, utf8Len_cons]
    have hb1 : ('[').utf8Size = 1 := by decide
    have hb2 : utf8Len [']'] = 1 := by decide
    rw [hb1, hb2]
    omega
  rw [htotal, hck, COOKIE_SIZE_LIMIT_BYTES]
  omega

/-- Witness for claim C5: the concrete oversized environment satisfies every
hypothesis and the run ends in the PayloadTooLarge error. -/
theorem backup_size_guard_witness :
    oversizedEnv.tabUrl ≠ ""
    ∧ isRestrictedUrl oversizedEnv.tabUrl = false
    ∧ oversizedEnv.userId ≠ ""
    ∧ getCookiesSizeBytes (backupCollectedCookies oversizedEnv) > COOKIE_SIZE_LIMIT_BYTES
    ∧ runBackupCore oversizedEnv = .error .payloadTooLarge :=
  ⟨by decide, by decide, by decide, oversizedEnv_exceeds,
   backup_size_guard oversizedEnv (by decide) (by decide) (by decide) oversizedEnv_exceeds⟩

/-- Lookup in an association list is preserved by appending an entry. -/
theorem lookup_append_entry {origin : String} {v : Storage} :
    ∀ (m : StorageMap) (e : String × Storage), m.lookup origin = some v →
      (m ++ [e]).lookup origin = some v
  | [], _, h => by simp [List.lookup] at h
  | (k, w) :: rest, e, h => by
    rw [List.cons_append]
    rw [List.lookup] at h ⊢
    cases hk : (origin == k) with
    | true => simpa [hk] using h
    | false =>
      rw [hk] at h
      simpa [hk] using lookup_append_entry rest e h

/-- Claim C10: once an origin has an entry in the storage snapshot map, the
harvesting loop never overwrites it — whatever hosts remain, lookup still
returns the original snapshot.  In particular the active tab origin recorded
before the loop, and the snapshot of the earlier of two hosts resolving to
the same origin, survive to the end of the loop unchanged. -/
theorem harvestLoop_never_overwrites (h : HarvestOutcomes) (current : String)
    (hosts : List String) (origin : String) (v : Storage) :
    ∀ m : StorageMap, m.lookup origin = some v →
      (harvestLoop h current hosts m).lookup origin = some v := by
  induction hosts with
  | nil => intro m hm; rw [harvestLoop]; exact hm
  | cons host rest ih =>
    intro m hm
    rw [harvestLoop]
    split
    · exact ih m hm
    · cases htr : tryHarvestHost h host with
      | none => exact ih m hm
      | some od =>
        obtain ⟨o, d⟩ := od
        by_cases hc : (o != "" && (m.lookup o).isNone) = true
        · simpa [hc] using ih (m ++ [(o, d)]) (lookup_append_entry m (o, d) hm)
        · simpa [hc] using ih m hm

/-- Two harvest hosts resolving to the same origin, for the C10 witness. -/
def duplicateOriginHarvest : HarvestOutcomes :=
  [("https://a.com", some ("https://a.com", [("first", "1")])),
   ("https://www-a.com", some ("https://a.com", [("second", "2")]))]

/-- Witness for claim C10: in a loop over two hosts that both report origin
https://a.com, the entry recorded before the loop is still returned at the
end, and the later host did not replace it. -/
theorem harvestLoop_never_overwrites_witness :
    ([("https://site.com", [("own", "x")])] : StorageMap).lookup "https://site.com"
      = some [("own", "x")]
    ∧ (harvestLoop duplicateOriginHarvest "site.com" ["a.com", "www-a.com"]
        [("https://site.com", [("own", "x")])]).lookup "https://site.com"
      = some [("own", "x")]
    ∧ (harvestLoop duplicateOriginHarvest "site.com" ["a.com", "www-a.com"]
        [("https://site.com", [("own", "x")])]).lookup "https://a.com"
      = some [("first", "1")] :=
  ⟨by decide,
   harvestLoop_never_overwrites duplicateOriginHarvest "site.com"
     ["a.com", "www-a.com"] "https://site.com" [("own", "x")]
     [("https://site.com", [("own", "x")])] (by decide),
   by decide⟩

/-- Boolean success test for a pipeline result. -/
def isOkResult {e a : Type} : Except e a → Bool
  | .ok _ => true
  | .error _ => false

/-- Claim C6: a harvest failure on any candidate host other than the active
tab hostname is swallowed — the loop behaves exactly as if the failing host
were absent, so its origin is omitted while every other host is still
processed in discovery order — and a backup run whose mandatory steps succeed
still succeeds regardless of harvest failures. -/
theorem backup_harvest_failure_isolated (h : HarvestOutcomes) (current host : String)
    (pre post : List String) (m : StorageMap)
    (hfail : tryHarvestHost h host = none) (hne : host ≠ current) :
    harvestLoop h current (pre ++ host :: post) m = harvestLoop h current (pre ++ post) m
    ∧ (∀ env : BackupEnv, env.tabUrl ≠ "" → isRestrictedUrl env.tabUrl = false →
        env.userId ≠ "" →
        getCookiesSizeBytes (backupCollectedCookies env) ≤ COOKIE_SIZE_LIMIT_BYTES →
        isOkResult env.ownStorage = true →
        isOkResult (runBackupCore env) = true) := by
  constructor
  · induction pre generalizing m with
    | nil =>
      simp only [List.nil_append]
      rw [harvestLoop, if_neg hne, hfail]
    | cons p pre2 ih =>
      simp only [List.cons_append]
      rw [harvestLoop, harvestLoop]
      by_cases hp : p = current
      · rw [if_pos hp, if_pos hp]
        exact ih m
      · rw [if_neg hp, if_neg hp]
        cases htr : tryHarvestHost h p with
        | none => exact ih m
        | some od =>
          obtain ⟨o, d⟩ := od
          by_cases hc : (o != "" && (m.lookup o).isNone) = true
          · simpa [hc] using ih (m ++ [(o, d)])
          · simpa [hc] using ih m
  · intro env e1 e2 e3 esize estore
    rw [runBackupCore]
    cases henv : env.ownStorage with
    | error u => rw [henv] at estore; simp [isOkResult] at estore
    | ok ownData =>
      have hnot : ¬ getCookiesSizeBytes (backupCollectedCookies env)
          > COOKIE_SIZE_LIMIT_BYTES := Nat.not_lt.mpr esize
      simp only [if_neg e1, e2, Bool.false_eq_true, if_false, if_neg e3, if_neg hnot, henv]
      by_cases hpw : (env.apiPassword != "") = true
      · simp [hpw, isOkResult]
      · simp [hpw, isOkResult]

/-- Harvest outcomes of end-to-end scenario C: hosts a.com and c.com succeed,
host b.com fails over https and over http (the tab-load timeout). -/
def scenarioCHarvest : HarvestOutcomes :=
  [("https://a.com", some ("https://a.com", [("k1", "v1")])),
   ("https://b.com", none),
   ("http://b.com", none),
   ("https://c.com", some ("https://c.com", [("k3", "v3")]))]

/-- A cookie pointing the harvester at a.com. -/
def cookieHostA : Cookie :=
  { name := "ca", value := "1", domain := "a.com", path := "/", secure := false,
    httpOnly := false, hostOnly := false, sameSite := none,
    expirationDate := none, priority := none, sameParty := none }

/-- A cookie pointing the harvester at b.com. -/
def cookieHostB : Cookie :=
  { name := "cb", value := "2", domain := "b.com", path := "/", secure := false,
    httpOnly := false, hostOnly := false, sameSite := none,
    expirationDate := none, priority := none, sameParty := none }

/-- A cookie pointing the harvester at c.com. -/
def cookieHostC : Cookie :=
  { name := "cc", value := "3", domain := "c.com", path := "/", secure := false,
    httpOnly := false, hostOnly := false, sameSite := none,
    expirationDate := none, priority := none, sameParty := none }

/-- The scenario-C backup environment: the active tab on site.com, three
candidate hosts discovered from cookies, the second of which times out. -/
def scenarioCEnv : BackupEnv :=
  { tabUrl := "https://site.com/", userId := "u",
    cookieBuckets := [[cookieHostA, cookieHostB, cookieHostC]], allCookies := [],
    ownStorage := .ok [], harvest := scenarioCHarvest, apiPassword := "",
    salt := [], nonce := [] }

set_option maxRecDepth 8000 in
/-- Witness for claim C6 at scenario C: the failing host b.com is skipped as
if absent, snapshots for a.com and c.com are still recorded, and the overall
backup run succeeds. -/
theorem backup_harvest_failure_isolated_witness :
    tryHarvestHost scenarioCHarvest "b.com" = none
    ∧ "b.com" ≠ "site.com"
    ∧ harvestLoop scenarioCHarvest "site.com" ["a.com", "b.com", "c.com"]
        [("https://site.com", [])]
      = harvestLoop scenarioCHarvest "site.com" ["a.com", "c.com"]
        [("https://site.com", [])]
    ∧ (harvestLoop scenarioCHarvest "site.com" ["a.com", "b.com", "c.com"]
        [("https://site.com", [])]).lookup "https://a.com" = some [("k1", "v1")]
    ∧ (harvestLoop scenarioCHarvest "site.com" ["a.com", "b.com", "c.com"]
        [("https://site.com", [])]).lookup "https://c.com" = some [("k3", "v3")]
    ∧ (harvestLoop scenarioCHarvest "site.com" ["a.com", "b.com", "c.com"]
        [("https://site.com", [])]).lookup "https://b.com" = none
    ∧ isOkResult (runBackupCore scenarioCEnv) = true :=
  ⟨by decide, by decide,
   (backup_harvest_failure_isolated scenarioCHarvest "site.com" "b.com"
      ["a.com"] ["c.com"] [("https://site.com", [])] (by decide) (by decide)).1,
   by decide, by decide, by decide,
   (backup_harvest_failure_isolated scenarioCHarvest "site.com" "b.com"
      ["a.com"] ["c.com"] [("https://site.com", [])] (by decide) (by decide)).2
     scenarioCEnv (by decide) (by decide) (by decide) (by decide) (by decide)⟩

/-- The record the remote store holds for one identity: plain cookies and
storage, or an encryption envelope (spec section 3, BackupRecord). -/
structure BackupRecord where
  cookies : List Cookie
  local_storage : StorageMap
  envelope : Option Envelope
deriving Repr

/-- The JSON body of a successful restore response; optional fields model
properties absent from the JSON object. -/
structure RestoreBody where
  cookies : Option (List Cookie)
  local_storage : Option StorageMap
  payload : Option SymCiphertext
  salt : Option (List Nat)
  nonce : Option (List Nat)
deriving Repr

/-- The response of the restore endpoint: a body on success, otherwise a
status code with an optional JSON detail string. -/
inductive RestoreResponse where
  | ok (body : RestoreBody)
  | err (status : Nat) (detail : Option String)
deriving Repr

/-- Modelled from the spec: the remote store restore endpoints
(`server/main.py` is not under src/).  The /e2e/ endpoint returns the stored
envelope fields; the plain endpoint answers 401 with detail
"Password required" when the stored record is encrypted (spec section 6 and
end-to-end scenario D) and the plain fields when it is not; a missing record
is a 404. -/
def remoteRestore (stored : Option BackupRecord) (e2e : Bool) : RestoreResponse :=
  match stored with
  | none => .err 404 none
  | some r =>
    if e2e then
      match r.envelope with
      | some env => .ok { cookies := none, local_storage := none,
                          payload := some env.payload, salt := some env.salt,
                          nonce := some env.nonce }
      | none => .err 404 none
    else
      match r.envelope with
      | some _ => .err 401 (some "Password required")
      | none => .ok { cookies := some r.cookies,
                      local_storage := some r.local_storage,
                      payload := none, salt := none, nonce := none }

/-- Failure modes of the restore pipeline. -/
inductive RestoreError where
  | noActiveTab
  | unsupportedPage
  | missingUserId
  | passwordRequired
  | invalidPassword
  | restoreFailed (status : Nat)
deriving DecidableEq, Repr

/-- The effects of a successful restore run: the cookie-set calls issued, the
synchronous own-origin storage write, the best-effort writes attempted for the
other origins, and the final tab reload. -/
structure RestoreOutcome where
  domain : String
  cookieSetCalls : List CookieDetails
  ownStorageWrite : Option Storage
  otherOriginWrites : List (String × Storage)
  reloaded : Bool
deriving DecidableEq, Repr

/-- runRestore from popup.js (identity-scoped variant): active-tab,
restricted-page and user-id checks; fetch from the plain or /e2e/ endpoint
according to whether a password is configured; map a 401 with the known
detail strings of the plain endpoint to the password errors; decrypt the
envelope fields when in e2e mode, turning any decryption throw into the
invalid-password error; then replay every cookie through buildCookieDetails,
write the current origin synchronously when present, attempt the remaining
origins best-effort, and reload the tab. -/
def runRestoreCore (tabUrl userId apiPassword : String) (stored : Option BackupRecord)
    (storeId : Option String) : Except RestoreError RestoreOutcome :=
  if tabUrl = "" then .error .noActiveTab
  else if isRestrictedUrl tabUrl then .error .unsupportedPage
  else if userId = "" then .error .missingUserId
  else
    let rootDomain := getRootDomain tabUrl
    let useE2E := apiPassword != ""
    match remoteRestore stored useE2E with
    | .err status detail =>
      if !useE2E && status == 401 then
        if detail == some "Password required" then .error .passwordRequired
        else if detail == some "Invalid password" then .error .invalidPassword
        else .error (.restoreFailed status)
      else .error (.restoreFailed status)
    | .ok body =>
      let decoded : Except RestoreError (List Cookie × StorageMap) :=
        if useE2E then
          if apiPassword = "" then .error .passwordRequired
          else
            match body.payload, body.salt, body.nonce with
            | some ct, some salt, some nonce =>
              match decryptE2EPayload ct salt nonce apiPassword with
              | some payload => .ok (payload.cookies, payload.local_storage)
              | none => .error .invalidPassword
            | _, _, _ => .error .invalidPassword
        else
          .ok (body.cookies.getD [], body.local_storage.getD [])
      match decoded with
      | .error e => .error e
      | .ok (cookies, localStorageMap) =>
        let currentOrigin := urlOrigin tabUrl
        .ok { domain := rootDomain,
              cookieSetCalls := cookies.map (fun c => buildCookieDetails c storeId),
              ownStorageWrite := localStorageMap.lookup currentOrigin,
              otherOriginWrites :=
                localStorageMap.filter (fun kv => kv.1 != currentOrigin),
              reloaded := true }

/-- Claim C7: when the fetched record carries an encryption envelope but no
password is configured, the restore run fails with the PasswordRequired
error — the plain endpoint answers 401 Password required and the client maps
exactly that detail to the password-required error, rather than restoring
nothing or failing some other way. -/
theorem restore_password_required (tabUrl userId : String) (r : BackupRecord)
    (env : Envelope) (storeId : Option String)
    (h1 : tabUrl ≠ "") (h2 : isRestrictedUrl tabUrl = false) (h3 : userId ≠ "")
    (henv : r.envelope = some env) :
    runRestoreCore tabUrl userId "" (some r) storeId = .error .passwordRequired := by
  rw [runRestoreCore]
  simp [h1, h2, h3, remoteRestore, henv]

/-- A record holding only an envelope, as an e2e backup stores it. -/
def encryptedRecord : BackupRecord :=
  { cookies := [], local_storage := [],
    envelope := some (encryptE2EPayload
      { cookies := [cookieAX], local_storage := [] } "pw-1" [1] [2]) }

/-- Witness for claim C7: restoring the encrypted record with no configured
password on a normal tab ends in the PasswordRequired error. -/
theorem restore_password_required_witness :
    ("https://x.com/" : String) ≠ ""
    ∧ isRestrictedUrl "https://x.com/" = false
    ∧ ("u" : String) ≠ ""
    ∧ encryptedRecord.envelope.isSome = true
    ∧ runRestoreCore "https://x.com/" "u" "" (some encryptedRecord) none
      = .error .passwordRequired :=
  ⟨by decide, by decide, by decide, rfl,
   restore_password_required "https://x.com/" "u" encryptedRecord
     (encryptE2EPayload { cookies := [cookieAX], local_storage := [] } "pw-1" [1] [2])
     none (by decide) (by decide) (by decide) rfl⟩

/-- Decryption under a different password fails with the authentication
error: the re-derived key differs from the encryption key. -/
theorem decrypt_wrong_password (p : E2EPayload) (w1 w2 : String)
    (salt nonce : List Nat) (hne : w1 ≠ w2) :
    decryptE2EPayload (encryptE2EPayload p w1 salt nonce).payload salt nonce w2 = none := by
  simp [decryptE2EPayload, encryptE2EPayload, aesGcmDecrypt, aesGcmEncrypt,
    deriveKey, DerivedKey.mk.injEq, hne]

/-- Claim C1: encrypt-then-decrypt with the same password returns the payload
unchanged; decryption under any different password fails; and a restore run
that fetches an envelope encrypted under one password while a different one
is configured surfaces exactly the single InvalidPassword error. -/
theorem e2e_crypto_roundtrip :
    (∀ (p : E2EPayload) (w : String) (salt nonce : List Nat),
      decryptE2EPayload (encryptE2EPayload p w salt nonce).payload salt nonce w = some p)
    ∧ (∀ (p : E2EPayload) (w1 w2 : String) (salt nonce : List Nat), w1 ≠ w2 →
      decryptE2EPayload (encryptE2EPayload p w1 salt nonce).payload salt nonce w2 = none)
    ∧ (∀ (tabUrl userId w1 w2 : String) (p : E2EPayload) (salt nonce : List Nat)
        (cs : List Cookie) (ls : StorageMap) (storeId : Option String),
      tabUrl ≠ "" → isRestrictedUrl tabUrl = false → userId ≠ "" →
      w2 ≠ "" → w1 ≠ w2 →
      runRestoreCore tabUrl userId w2
        (some { cookies := cs, local_storage := ls,
                envelope := some (encryptE2EPayload p w1 salt nonce) }) storeId
        = .error .invalidPassword) := by
  refine ⟨fun p w salt nonce => ?_,
          fun p w1 w2 salt nonce hne => decrypt_wrong_password p w1 w2 salt nonce hne,
          fun tabUrl userId w1 w2 p salt nonce cs ls storeId h1 h2 h3 h4 h5 => ?_⟩
  · simp [decryptE2EPayload, encryptE2EPayload, aesGcmDecrypt, aesGcmEncrypt, deriveKey]
  · rw [runRestoreCore]
    simp [h1, h2, h3, h4, remoteRestore, encryptE2EPayload, decryptE2EPayload,
      aesGcmEncrypt, aesGcmDecrypt, deriveKey, DerivedKey.mk.injEq, h5]

/-- The payload used by the crypto witness. -/
def witnessPayload : E2EPayload :=
  { cookies := [cookieAX], local_storage := [("https://x.com", [("k", "v")])] }

/-- Witness for claim C1 at concrete passwords w1 and w2: the round trip
returns the payload, the cross-password decryption fails, and the restore run
with the mismatched configured password ends in InvalidPassword. -/
theorem e2e_crypto_roundtrip_witness :
    decryptE2EPayload (encryptE2EPayload witnessPayload "w1" [1] [2]).payload
      [1] [2] "w1" = some witnessPayload
    ∧ decryptE2EPayload (encryptE2EPayload witnessPayload "w1" [1] [2]).payload
      [1] [2] "w2" = none
    ∧ runRestoreCore "https://x.com/" "u" "w2"
        (some { cookies := [], local_storage := [],
                envelope := some (encryptE2EPayload witnessPayload "w1" [1] [2]) }) none
      = .error .invalidPassword :=
  ⟨e2e_crypto_roundtrip.1 witnessPayload "w1" [1] [2],
   e2e_crypto_roundtrip.2.1 witnessPayload "w1" "w2" [1] [2] (by decide),
   e2e_crypto_roundtrip.2.2 "https://x.com/" "u" "w1" "w2" witnessPayload [1] [2]
     [] [] none (by decide) (by decide) (by decide) (by decide) (by decide)⟩

/-- Substring occurrence test over character lists. -/
def containsSeq (needle : List Char) : List Char → Bool
  | [] => needle.isPrefixOf []
  | c :: rest => needle.isPrefixOf (c :: rest) || containsSeq needle rest

/-- A host-only cookie as collected by a backup. -/
def hostOnlyTracked : Cookie :=
  { name := "h", value := "v", domain := "x.com", path := "/", secure := false,
    httpOnly := false, hostOnly := true, sameSite := none,
    expirationDate := none, priority := none, sameParty := none }

/-- A plain-mode backup environment collecting only the host-only cookie. -/
def hostOnlyEnv : BackupEnv :=
  { tabUrl := "https://x.com/", userId := "u",
    cookieBuckets := [[hostOnlyTracked]], allCookies := [],
    ownStorage := .ok [], harvest := [], apiPassword := "",
    salt := [], nonce := [] }

/-- The request the host-only environment submits. -/
def plainHostOnlyRequest : BackupRequest :=
  { path := "/backup", user_id := "u", device := "", domain := "x.com",
    cookies := some [hostOnlyTracked],
    local_storage := some [("https://x.com", [])], envelope := none }

set_option maxRecDepth 4000 in
/-- Claim C8 counterexample: a collected record with hostOnly true reaches the
submitted request unchanged — the request body carries the record with
hostOnly still true, and the serialized cookie object contains the
hostOnly:true member — so the field is not dropped before transport. -/
theorem backup_keeps_hostOnly_counterexample :
    hostOnlyTracked.hostOnly = true
    ∧ runBackupCore hostOnlyEnv = .ok plainHostOnlyRequest
    ∧ plainHostOnlyRequest.cookies = some [hostOnlyTracked]
    ∧ containsSeq (jsonMember "hostOnly" (jsonBool true)) (cookieJson hostOnlyTracked)
      = true := by
  refine ⟨rfl, by rfl, rfl, by decide⟩

/-- Claim C8 (amended): the collected cookie records are transported to the
remote store verbatim — in plain mode the request body carries exactly the
collected list, hostOnly included; in e2e mode the envelope plaintext carries
exactly the collected list.  The hostOnly flag is consumed at restore time by
buildCookieDetails, which is why it must survive transport. -/
theorem backup_transports_cookies_verbatim (env : BackupEnv) (req : BackupRequest)
    (hok : runBackupCore env = .ok req) :
    (env.apiPassword = "" → req.cookies = some (backupCollectedCookies env))
    ∧ (env.apiPassword ≠ "" → ∃ e, req.envelope = some e
        ∧ e.payload.plaintext.cookies = backupCollectedCookies env) := by
  rw [runBackupCore] at hok
  by_cases h1 : env.tabUrl = ""
  · simp [h1] at hok
  by_cases h2 : isRestrictedUrl env.tabUrl = true
  · simp [h1, h2] at hok
  by_cases h3 : env.userId = ""
  · simp [h1, h2, h3] at hok
  by_cases h4 : getCookiesSizeBytes (backupCollectedCookies env) > COOKIE_SIZE_LIMIT_BYTES
  · simp [h1, h2, h3, h4] at hok
  cases henv : env.ownStorage with
  | error u => rw [henv] at hok; simp [h1, h2, h3, h4] at hok
  | ok ownData =>
    rw [henv] at hok
    by_cases hpw : env.apiPassword = ""
    · simp [h1, h2, h3, h4, hpw] at hok
      subst hok
      exact ⟨fun _ => rfl, fun hne => absurd hpw hne⟩
    · simp [h1, h2, h3, h4, hpw] at hok
      subst hok
      exact ⟨fun hc => absurd hc hpw, fun _ => ⟨_, rfl, rfl⟩⟩

set_option maxRecDepth 4000 in
/-- Witness for the amended claim C8 at the host-only environment: the run
submits the plain request whose cookie list is exactly the collected one. -/
theorem backup_transports_cookies_verbatim_witness :
    runBackupCore hostOnlyEnv = .ok plainHostOnlyRequest
    ∧ hostOnlyEnv.apiPassword = ""
    ∧ plainHostOnlyRequest.cookies = some (backupCollectedCookies hostOnlyEnv) :=
  ⟨by rfl, rfl,
   (backup_transports_cookies_verbatim hostOnlyEnv plainHostOnlyRequest (by rfl)).1 rfl⟩

end OmniSession
